import Mathlib

/-!
# Verification of the brand-rebuild project-tracking dashboard

A shallow embedding of the derivation engine of the dashboard
(task catalog + override store + progress store → effective tasks,
weighted progress, lifecycle status, filtering), translated from the
TypeScript source (`App.tsx`, `DashboardView.tsx`, `CountdownTracker.tsx`,
`GanttView.tsx`, `OwnerView.tsx`).

Modelling conventions:
* Calendar dates travel through the code as ISO `YYYY-MM-DD` strings and are
  compared after `new Date(s)` parsing.  We model the parse as
  `parseDate : String → Option Int` (days since the Unix epoch); `none`
  plays the role of JavaScript's `Invalid Date` (`NaN` timestamp), and the
  comparison helpers `dlt`, `dle`, `dge` return `false` whenever either side
  is `none`, exactly as `NaN` comparisons do.
* JavaScript objects used as string-keyed maps are association lists
  `List (String × α)` with `lookupKey`; property assignment is `objSet`
  (update in place if the key exists, append otherwise) and `delete` is
  `eraseKey`.
* Subtask weights are JavaScript numbers holding decimal fractions; we model
  them as `ℚ`.  `Math.round` is Mathlib's `round` (both are ⌊x + 1/2⌋).
-/

namespace Dashboard

/-! ## Dates -/

/-- Day count since 1970-01-01 of a Gregorian calendar day, the standard
civil-from-days algorithm; mirrors `new Date("YYYY-MM-DD").getTime()`
divided by 86 400 000 for a valid ISO date string. -/
def daysFromCivil (y m d : Int) : Int :=
  let y' : Int := if m ≤ 2 then y - 1 else y
  let era : Int := (if 0 ≤ y' then y' else y' - 399) / 400
  let yoe : Int := y' - era * 400
  let mp : Int := if 2 < m then m - 3 else m + 9
  let doy : Int := (153 * mp + 2) / 5 + d - 1
  let doe : Int := yoe * 365 + yoe / 4 - yoe / 100 + doy
  era * 146097 + doe - 719468

/-- Number of days in a Gregorian month (used to validate the day field,
as ECMAScript rejects out-of-range ISO date components). -/
def daysInMonth (y m : Int) : Int :=
  if m = 2 then
    if y % 4 = 0 ∧ (y % 100 ≠ 0 ∨ y % 400 = 0) then 29 else 28
  else if m = 4 ∨ m = 6 ∨ m = 9 ∨ m = 11 then 30
  else 31

/-- Split a character list on `-`. -/
def splitDash : List Char → List (List Char)
  | [] => [[]]
  | c :: cs =>
    let rest := splitDash cs
    if c = '-' then [] :: rest
    else
      match rest with
      | [] => [[c]]
      | g :: gs => (c :: g) :: gs

/-- Parse a list of decimal digits into a number; `none` if any character is
not a digit or the list is empty. -/
def parseDigits : List Char → Option Nat
  | [] => none
  | cs =>
    cs.foldl
      (fun acc c =>
        match acc with
        | none => none
        | some n => if '0' ≤ c ∧ c ≤ '9' then some (n * 10 + (c.toNat - '0'.toNat)) else none)
      (some 0)

/-- Model of `toDate` (`new Date(s)` on an ISO `YYYY-MM-DD` string) reduced
to the day number: `some` of the epoch-day count for a well-formed date,
`none` (Invalid Date) otherwise. -/
def parseDate (s : String) : Option Int :=
  match splitDash s.data with
  | [ys, ms, ds] =>
    if ys.length = 4 ∧ ms.length = 2 ∧ ds.length = 2 then
      match parseDigits ys, parseDigits ms, parseDigits ds with
      | some y, some m, some d =>
        if 1 ≤ m ∧ m ≤ 12 ∧ 1 ≤ d ∧ (d : Int) ≤ daysInMonth y m then
          some (daysFromCivil y m d)
        else none
      | _, _, _ => none
    else none
  | _ => none

/-- Comparison `a < b` on JavaScript `Date`s: `false` when either side is Invalid
(`NaN` comparisons are always false). -/
def dlt : Option Int → Option Int → Bool
  | some a, some b => decide (a < b)
  | _, _ => false

/-- Comparison `a <= b` on JavaScript `Date`s, with the same `NaN` convention. -/
def dle : Option Int → Option Int → Bool
  | some a, some b => decide (a ≤ b)
  | _, _ => false

/-- Comparison `a >= b` on JavaScript `Date`s, with the same `NaN` convention. -/
def dge : Option Int → Option Int → Bool
  | some a, some b => decide (b ≤ a)
  | _, _ => false

/-- Model of `daysBetween a b = Math.round((toDate(b) - toDate(a)) / 86400000)`.
For day-aligned valid dates the division is exact, so the rounding
disappears; an invalid date on either side yields `none` (`NaN`). -/
def daysBetween (a b : String) : Option Int :=
  match parseDate a, parseDate b with
  | some x, some y => some (y - x)
  | _, _ => none

/-! ## Data model -/

/-- A task definition: the base-catalog entries, the user-created custom
tasks and the effective (merged) tasks all share this shape. -/
structure Task where
  id : String
  label : String
  start : String
  end_ : String
  owner : String
  category : Option String := none
  deriving Repr, DecidableEq

/-- A chart row as produced by `buildRows`: a task plus the derived
`offset`/`length` day counts (which are `NaN`, i.e. `none`, when a date
string does not parse). -/
structure Row where
  id : String
  label : String
  start : String
  end_ : String
  owner : String
  category : Option String := none
  offset : Option Int
  length : Option Int
  deriving Repr, DecidableEq

/-- A task override: per-field partial replacement (`taskOverrides` values). -/
structure TaskOverride where
  start : Option String := none
  end_ : Option String := none
  owner : Option String := none
  label : Option String := none
  deriving Repr, DecidableEq

/-- A subtask definition (static `subtaskDefinitions` table entry). -/
structure Subtask where
  id : String
  label : String
  weight : ℚ
  description : String
  deriving Repr, DecidableEq

/-- The mutable application state held by the `App` component. -/
structure AppState where
  taskOverrides : List (String × TaskOverride)
  customTasks : List Task
  deletedTaskIds : List String
  subtaskProgress : List (String × List (String × Bool))
  deriving Repr, DecidableEq

/-! ## JavaScript object / string helpers -/

/-- Key lookup on a string-keyed object (property read `m[k]`). -/
def lookupKey : List (String × α) → String → Option α
  | [], _ => none
  | p :: ps, k => if p.1 = k then some p.2 else lookupKey ps k

/-- Property assignment `m[k] = v` on an object: overwrite an existing key
in place, otherwise append. -/
def objSet (m : List (String × α)) (k : String) (v : α) : List (String × α) :=
  if (lookupKey m k).isSome then
    m.map (fun p => if p.1 = k then (k, v) else p)
  else m ++ [(k, v)]

/-- Deletion `delete m[k]`: drop the entry for `k`. -/
def eraseKey (m : List (String × α)) (k : String) : List (String × α) :=
  m.filter (fun p => p.1 ≠ k)

/-- JavaScript `o || b` for an optional string `o`: the base value wins when
the override field is absent or the empty string (both falsy). -/
def jsOr (o : Option String) (b : String) : String :=
  match o with
  | some s => if s = "" then b else s
  | none => b

/-- JavaScript `String.prototype.trim`. -/
def jsTrim (s : String) : String :=
  ⟨((s.data.dropWhile Char.isWhitespace).reverse.dropWhile Char.isWhitespace).reverse⟩

/-- Lower-cased character list of a string (`s.toLowerCase()`). -/
def jsLower (s : String) : List Char :=
  s.data.map Char.toLower

/-- Whether `needle` occurs as a contiguous run inside `hay`. -/
def charsContain (needle : List Char) : List Char → Bool
  | [] => needle.isEmpty
  | c :: rest => needle.isPrefixOf (c :: rest) || charsContain needle rest

/-- Substring test `hay.includes(needle)` after both sides are lower-cased. -/
def lowerIncludes (hay needle : String) : Bool :=
  charsContain (jsLower needle) (jsLower hay)

/-! ## Derivation engine -/

/-- The fixed global kickoff date (`const KICKOFF = "2025-11-10"`). -/
def KICKOFF : String := "2025-11-10"

/-- JavaScript `Math.max(0, x)` where `x` may be `NaN` (`Math.max` with a
`NaN` argument is `NaN`). -/
def jsMaxNaNZero : Option Int → Option Int
  | some x => some (max 0 x)
  | none => none

/-- JavaScript `Math.max(1, x)` with the same `NaN` convention. -/
def jsMaxNaNOne : Option Int → Option Int
  | some x => some (max 1 x)
  | none => none

/-- Model of `buildRows`: attach `offset = Math.max(0, daysBetween(KICKOFF, start))`
and `length = Math.max(1, daysBetween(start, end))` to every task. -/
def buildRows (tasks : List Task) : List Row :=
  tasks.map (fun t =>
    { id := t.id, label := t.label, start := t.start, end_ := t.end_,
      owner := t.owner, category := t.category,
      offset := jsMaxNaNZero (daysBetween KICKOFF t.start),
      length := jsMaxNaNOne (daysBetween t.start t.end_) })

/-- The per-task override merge inside `allTasks`: when an override entry
exists for the task id, each of `start`, `end`, `owner`, `label` is
`override.field || task.field`. -/
def applyOverride (overrides : List (String × TaskOverride)) (t : Task) : Task :=
  match lookupKey overrides t.id with
  | some o =>
    { t with
      start := jsOr o.start t.start,
      end_ := jsOr o.end_ t.end_,
      owner := jsOr o.owner t.owner,
      label := jsOr o.label t.label }
  | none => t

/-- The `allTasks` memo: concatenate the static catalog with the custom
tasks, drop deleted ids, merge overrides, and build chart rows.  The static
catalog `allProjectTasks` is passed in as `catalog`. -/
def computeEffectiveTasks (catalog customTasks : List Task)
    (overrides : List (String × TaskOverride)) (deleted : List String) : List Row :=
  buildRows
    (((catalog ++ customTasks).filter (fun t => !(deleted.contains t.id))).map
      (applyOverride overrides))

/-- The inner reduction of the `progress` memo for one task: a fold over its
subtask definitions adding `subtask.weight * 100` for each completed one. -/
def taskTotalProgress (subs : List Subtask) (completed : List (String × Bool)) : ℚ :=
  subs.foldl
    (fun acc st => if (lookupKey completed st.id).getD false then acc + st.weight * 100 else acc)
    0

/-- The `progress` memo: every id in the subtask-definition table gets the
rounded weighted total; afterwards each effective task id whose entry is
missing or falsy (`!result[task.id]`) is set to `0`. -/
def computeProgress (defs : List (String × List Subtask))
    (sp : List (String × List (String × Bool))) (allTasks : List Row) :
    List (String × Int) :=
  let result := defs.foldl
    (fun res p => objSet res p.1 (round (taskTotalProgress p.2 ((lookupKey sp p.1).getD []))))
    []
  allTasks.foldl
    (fun res t => if (lookupKey res t.id).getD 0 = 0 then objSet res t.id 0 else res)
    result

/-! ## Status derivation -/

/-- The four lifecycle statuses of the dashboard and owner views. -/
inductive TaskStatus where
  | completed
  | notStarted
  | overdue
  | inProgress
  deriving Repr, DecidableEq

/-- Model of `getTaskStatus` (OwnerView): completed at 100 %, else not-started before
`start`, else overdue strictly after `end`, else in-progress. -/
def getTaskStatus (progress : List (String × Int)) (currentDate : String) (t : Task) :
    TaskStatus :=
  let taskProgress := (lookupKey progress t.id).getD 0
  let today := parseDate currentDate
  let start := parseDate t.start
  let end_ := parseDate t.end_
  if taskProgress = 100 then .completed
  else if dlt today start then .notStarted
  else if dlt end_ today then .overdue
  else .inProgress

/-- The statuses of the countdown tracker. -/
inductive CountdownStatus where
  | upcoming
  | inProgress
  | completed
  | overdue
  deriving Repr, DecidableEq

/-- The status branch of `tasksWithCountdown` (CountdownTracker): completed
at 100 %, else upcoming when `daysUntilStart > 0`, else in-progress when
`daysUntilEnd >= 0`, else overdue. -/
def countdownStatus (progress : List (String × Int)) (currentDate : String) (t : Task) :
    CountdownStatus :=
  let taskProgress := (lookupKey progress t.id).getD 0
  let daysUntilStart := daysBetween currentDate t.start
  let daysUntilEnd := daysBetween currentDate t.end_
  if taskProgress = 100 then .completed
  else if dlt (some 0) daysUntilStart then .upcoming
  else if dle (some 0) daysUntilEnd then .inProgress
  else .overdue

/-- The four counters of the dashboard `stats` memo. -/
structure Stats where
  notStarted : Nat
  inProgress : Nat
  completed : Nat
  overdue : Nat
  deriving Repr, DecidableEq

/-- One pass of the dashboard `stats` fold: an if/else-if chain that
increments at most one counter per task. -/
def statsStep (progress : List (String × Int)) (currentDate : String)
    (acc : Stats) (t : Task) : Stats :=
  let taskProgress := (lookupKey progress t.id).getD 0
  let today := parseDate currentDate
  let start := parseDate t.start
  let end_ := parseDate t.end_
  if taskProgress = 100 then { acc with completed := acc.completed + 1 }
  else if dlt today start then { acc with notStarted := acc.notStarted + 1 }
  else if dge today start && dle today end_ then { acc with inProgress := acc.inProgress + 1 }
  else if dlt end_ today && decide (taskProgress < 100) then
    { acc with overdue := acc.overdue + 1 }
  else acc

/-- The dashboard `stats` memo (DashboardView): count the tasks in each
lifecycle status bucket. -/
def dashboardStats (tasks : List Task) (progress : List (String × Int))
    (currentDate : String) : Stats :=
  tasks.foldl (statsStep progress currentDate) ⟨0, 0, 0, 0⟩

/-! ## Filter layer -/

/-- The search predicate of `filteredTasks`: an empty term matches all,
otherwise case-insensitive substring match against label or owner. -/
def matchesSearch (searchTerm : String) (t : Row) : Bool :=
  searchTerm = "" || lowerIncludes t.label searchTerm || lowerIncludes t.owner searchTerm

/-- The owner predicate of `filteredTasks`. -/
def matchesOwner (ownerFilter : String) (t : Row) : Bool :=
  ownerFilter = "all" || t.owner = ownerFilter

/-- The status predicate of `filteredTasks`: recomputed per filter choice;
note that `"not-started"` tests only `today < start` and ignores the
progress percent. -/
def matchesStatusFilter (statusFilter : String) (progress : List (String × Int))
    (currentDate : String) (t : Row) : Bool :=
  if statusFilter = "all" then true
  else
    let taskProgress := (lookupKey progress t.id).getD 0
    let today := parseDate currentDate
    let start := parseDate t.start
    let end_ := parseDate t.end_
    if statusFilter = "completed" then taskProgress = 100
    else if statusFilter = "in-progress" then
      dge today start && dle today end_ && decide (taskProgress < 100)
    else if statusFilter = "not-started" then dlt today start
    else if statusFilter = "overdue" then dlt end_ today && decide (taskProgress < 100)
    else true

/-- The `filteredTasks` memo: the conjunction of the three predicates over
the effective task rows, preserving order. -/
def filteredTasks (allTasks : List Row) (searchTerm ownerFilter statusFilter : String)
    (progress : List (String × Int)) (currentDate : String) : List Row :=
  allTasks.filter (fun t =>
    matchesSearch searchTerm t && matchesOwner ownerFilter t &&
      matchesStatusFilter statusFilter progress currentDate t)

/-! ## Mutation operations -/

/-- Model of `handleDeleteTask`: add the id to the deletion set, delete its override
entry, delete its subtask-completion entry. -/
def handleDeleteTask (s : AppState) (taskId : String) : AppState :=
  { s with
    deletedTaskIds := s.deletedTaskIds ++ [taskId],
    taskOverrides := eraseKey s.taskOverrides taskId,
    subtaskProgress := eraseKey s.subtaskProgress taskId }

/-- Model of `onUpdateTask` (App): merge the partial update into the override map,
creating the entry when absent.  The dialog always supplies all four
fields, so the spread `{ ...prev[taskId], ...updates }` is the update. -/
def updateTask (s : AppState) (taskId : String) (updates : TaskOverride) : AppState :=
  { s with taskOverrides := objSet s.taskOverrides taskId updates }

/-- Model of `onResetTimelines` (App): `setTaskOverrides({})`. -/
def resetOverrides (s : AppState) : AppState :=
  { s with taskOverrides := [] }

/-- A transient user notice (the `toast` calls). -/
inductive Toast where
  | success (msg : String)
  | error (msg : String)
  deriving Repr, DecidableEq

/-- Model of `handleCreateTask` (GanttView dialog composed with the App store
update): a label that is empty after trimming is rejected with an error
toast and no state change; otherwise a custom task with generated id
`custom_<Date.now()>_<random suffix>` is appended and a success toast
shown.  `nowMs` and `rand` stand for `Date.now()` and the random suffix;
the success toast's date-formatted description line is elided. -/
def handleCreateTask (s : AppState)
    (newTaskLabel newTaskStart newTaskEnd newTaskOwner newTaskCategory : String)
    (nowMs : Int) (rand : String) : AppState × List Toast :=
  if jsTrim newTaskLabel = "" then
    (s, [.error "Please enter a task name"])
  else
    let categoryValue := if newTaskCategory = "none" then none else some newTaskCategory
    let newTask : Task :=
      { id := "custom_" ++ toString nowMs ++ "_" ++ rand,
        label := newTaskLabel, start := newTaskStart, end_ := newTaskEnd,
        owner := newTaskOwner, category := categoryValue }
    ({ s with customTasks := s.customTasks ++ [newTask] },
      [.success ("Created task \"" ++ newTaskLabel ++ "\"")])

/-! ## Persistence loads -/

/-- The `defaultCategoryColors` table from the source. -/
def defaultCategoryColors : List (String × String) :=
  [("website", "#6366f1"), ("tradeshow", "#eab308"),
   ("templates", "#10b981"), ("visual-assets", "#8b5cf6")]

/-- The initial sample `subtaskProgress` data from the source. -/
def initialSubtaskProgress : List (String × List (String × Bool)) :=
  [("foundations",
    [("mission", true), ("vision", false), ("values", false),
     ("positioning", false), ("messages", false)])]

/-- The `categoryColors` initializer:
`saved ? JSON.parse(saved) : defaultCategoryColors` where
`saved = localStorage.getItem('categoryColors')`.  `parseJson` stands for
`JSON.parse`, whose thrown `SyntaxError` is the `Except.error` case; note
the initializer has no `try`/`catch`, so a parse failure propagates. -/
def loadCategoryColors (parseJson : String → Except String (List (String × String)))
    (saved : Option String) : Except String (List (String × String)) :=
  match saved with
  | none => .ok defaultCategoryColors
  | some s => if s = "" then .ok defaultCategoryColors else parseJson s

/-- The `subtaskProgress` initializer: `if (saved) return JSON.parse(saved);`
else the initial sample data; again with no `try`/`catch` around the
parse. -/
def loadSubtaskProgress
    (parseJson : String → Except String (List (String × List (String × Bool))))
    (saved : Option String) :
    Except String (List (String × List (String × Bool))) :=
  match saved with
  | none => .ok initialSubtaskProgress
  | some s => if s = "" then .ok initialSubtaskProgress else parseJson s

/-! ## Static data used by the concrete test cases -/

/-- The `foundations` entry of the static `subtaskDefinitions` table: the
weights `[0.25, 0.25, 0.2, 0.2, 0.1]` named in the spec's progress
example. -/
def foundationsSubtasks : List Subtask :=
  [⟨"mission", "Mission Statement", 0.25,
    "Define company purpose and reason for existence"⟩,
   ⟨"vision", "Vision Statement", 0.25,
    "Articulate long-term aspirations and future state"⟩,
   ⟨"values", "Core Values", 0.2,
    "Establish fundamental beliefs and operating principles"⟩,
   ⟨"positioning", "Brand Positioning", 0.2,
    "Define unique market position and competitive differentiation"⟩,
   ⟨"messages", "Key Messages", 0.1,
    "Craft primary communication themes and talking points"⟩]

/-! ## Association-list lemmas -/

theorem lookupKey_mapSet_self (k : String) (v : α) :
    ∀ (m : List (String × α)), (lookupKey m k).isSome →
      lookupKey (m.map (fun p => if p.1 = k then (k, v) else p)) k = some v
  | [], h => by simp [lookupKey] at h
  | p :: ps, h => by
    by_cases hp : p.1 = k
    · simp [lookupKey, hp]
    · have h' : (lookupKey ps k).isSome := by simpa [lookupKey, hp] using h
      simpa [lookupKey, hp] using lookupKey_mapSet_self k v ps h'

theorem lookupKey_mapSet_ne (k k' : String) (v : α) (hne : k' ≠ k) :
    ∀ (m : List (String × α)),
      lookupKey (m.map (fun p => if p.1 = k then (k, v) else p)) k' = lookupKey m k'
  | [] => by simp [lookupKey]
  | p :: ps => by
    by_cases hp : p.1 = k
    · have hpk' : p.1 ≠ k' := by rw [hp]; exact fun h => hne h.symm
      simp [lookupKey, hp, Ne.symm hne, hpk', lookupKey_mapSet_ne k k' v hne ps]
    · by_cases hp' : p.1 = k'
      · simp [lookupKey, hp, hp', hne]
      · simp [lookupKey, hp, hp', lookupKey_mapSet_ne k k' v hne ps]

theorem lookupKey_append_right (m₁ m₂ : List (String × α)) (k : String)
    (h : lookupKey m₁ k = none) : lookupKey (m₁ ++ m₂) k = lookupKey m₂ k := by
  induction m₁ with
  | nil => simp
  | cons p ps ih =>
    by_cases hp : p.1 = k
    · simp [lookupKey, hp] at h
    · rw [List.cons_append]
      have h' : lookupKey ps k = none := by simpa [lookupKey, hp] using h
      simpa [lookupKey, hp] using ih h'

theorem lookupKey_objSet_self (m : List (String × α)) (k : String) (v : α) :
    lookupKey (objSet m k v) k = some v := by
  unfold objSet
  by_cases h : (lookupKey m k).isSome
  · simpa [h] using lookupKey_mapSet_self k v m h
  · have h' : lookupKey m k = none := by
      cases hm : lookupKey m k with
      | none => rfl
      | some w => rw [hm] at h; simp at h
    simp [h, lookupKey_append_right m [(k, v)] k h', lookupKey]

theorem lookupKey_append_singleton_ne (k k' : String) (v : α) (hne : k' ≠ k) :
    ∀ (m : List (String × α)), lookupKey (m ++ [(k, v)]) k' = lookupKey m k'
  | [] => by simp [lookupKey, Ne.symm hne]
  | p :: ps => by
    by_cases hp' : p.1 = k'
    · simp [lookupKey, hp']
    · simp [lookupKey, hp', lookupKey_append_singleton_ne k k' v hne ps]

theorem lookupKey_objSet_ne (m : List (String × α)) (k k' : String) (v : α)
    (hne : k' ≠ k) : lookupKey (objSet m k v) k' = lookupKey m k' := by
  unfold objSet
  by_cases h : (lookupKey m k).isSome
  · simpa [h] using lookupKey_mapSet_ne k k' v hne m
  · simpa [h] using lookupKey_append_singleton_ne k k' v hne m

theorem lookupKey_eraseKey_self (m : List (String × α)) (k : String) :
    lookupKey (eraseKey m k) k = none := by
  induction m with
  | nil => simp [eraseKey, lookupKey]
  | cons p ps ih =>
    by_cases hp : p.1 = k
    · simpa [eraseKey, lookupKey, hp] using ih
    · simpa [eraseKey, lookupKey, hp] using ih

/-! ## Weighted-progress lemmas -/

theorem taskTotalProgress_aux (completed : List (String × Bool)) :
    ∀ (subs : List Subtask) (a : ℚ),
      subs.foldl
          (fun acc st =>
            if (lookupKey completed st.id).getD false then acc + st.weight * 100 else acc)
          a
        = a + 100 *
            ((subs.filter fun st => (lookupKey completed st.id).getD false).map
              Subtask.weight).sum
  | [], a => by simp
  | st :: rest, a => by
    by_cases h : (lookupKey completed st.id).getD false = true
    · simp only [List.foldl_cons, List.filter_cons, h, if_true]
      rw [taskTotalProgress_aux completed rest]
      simp
      ring
    · simp only [List.foldl_cons, List.filter_cons, h, if_false,
        Bool.false_eq_true]
      rw [taskTotalProgress_aux completed rest]

/-- The per-task reduction equals `100 ×` the total weight of the completed
subtasks. -/
theorem taskTotalProgress_eq (subs : List Subtask) (completed : List (String × Bool)) :
    taskTotalProgress subs completed
      = 100 *
          ((subs.filter fun st => (lookupKey completed st.id).getD false).map
            Subtask.weight).sum := by
  simpa using taskTotalProgress_aux completed subs 0

/-- The first `computeProgress` fold does not create entries for ids outside
the definition table: folding over `defs` leaves the lookup of an id that is
not among the remaining keys unchanged. -/
theorem progressFold_not_mem (g : String → List Subtask → Int) (tid : String) :
    ∀ (defs : List (String × List Subtask)) (acc : List (String × Int)),
      tid ∉ defs.map Prod.fst →
      lookupKey (defs.foldl (fun res p => objSet res p.1 (g p.1 p.2)) acc) tid
        = lookupKey acc tid
  | [], acc, _ => rfl
  | (k, s) :: rest, acc, h => by
    have hk : tid ≠ k := by
      intro hkeq; exact h (by simp [hkeq])
    have hrest : tid ∉ rest.map Prod.fst := by
      intro hmem; exact h (by simp [hmem])
    rw [List.foldl_cons]
    rw [progressFold_not_mem g tid rest (objSet acc k (g k s)) hrest]
    exact lookupKey_objSet_ne acc k tid (g k s) hk

/-- After the first `computeProgress` fold, every id of the definition table
is mapped to the reduction of its subtask list. -/
theorem progressFold_lookup (g : String → List Subtask → Int) :
    ∀ (defs : List (String × List Subtask)) (acc : List (String × Int)),
      (defs.map Prod.fst).Nodup →
      ∀ (tid : String) (subs : List Subtask), lookupKey defs tid = some subs →
        lookupKey (defs.foldl (fun res p => objSet res p.1 (g p.1 p.2)) acc) tid
          = some (g tid subs)
  | [], _, _, tid, subs, hl => by simp [lookupKey] at hl
  | (k, s) :: rest, acc, hnd, tid, subs, hl => by
    have hnd' : (rest.map Prod.fst).Nodup := (List.nodup_cons.mp (by simpa using hnd)).2
    by_cases hk : k = tid
    · have hsubs : subs = s := by
        rw [show lookupKey ((k, s) :: rest) tid = some s by simp [lookupKey, hk]] at hl
        exact (Option.some_injective _ hl).symm
      have hknotin : tid ∉ rest.map Prod.fst := by
        rw [← hk]; exact (List.nodup_cons.mp (by simpa using hnd)).1
      rw [List.foldl_cons,
        progressFold_not_mem g tid rest (objSet acc k (g k s)) hknotin, hk, hsubs]
      exact lookupKey_objSet_self acc tid (g tid s)
    · have hl' : lookupKey rest tid = some subs := by
        simpa [lookupKey, hk] using hl
      rw [List.foldl_cons]
      exact progressFold_lookup g rest (objSet acc k (g k s)) hnd' tid subs hl'

/-- The zero-filling fold of `computeProgress` preserves every existing
entry (an entry holding `0` may be rewritten, but only to `0` again). -/
theorem zeroFill_preserves (tid : String) (v : Int) :
    ∀ (tasks : List Row) (res : List (String × Int)),
      lookupKey res tid = some v →
      lookupKey
          (tasks.foldl
            (fun res t => if (lookupKey res t.id).getD 0 = 0 then objSet res t.id 0 else res)
            res)
          tid
        = some v
  | [], res, h => h
  | t :: rest, res, h => by
    rw [List.foldl_cons]
    by_cases hc : (lookupKey res t.id).getD 0 = 0
    · simp only [hc, if_true]
      by_cases hid : t.id = tid
      · subst hid
        have hv : v = 0 := by rw [h] at hc; simpa using hc
        subst hv
        exact zeroFill_preserves t.id 0 rest _ (lookupKey_objSet_self res t.id 0)
      · exact zeroFill_preserves tid v rest _
          ((lookupKey_objSet_ne res t.id tid 0 (Ne.symm hid)).trans h)
    · simp only [hc, if_false]
      exact zeroFill_preserves tid v rest res h

/-- The zero-filling fold of `computeProgress` maps every effective task id
whose entry is absent or `0` to `0`. -/
theorem zeroFill_mem (tid : String) :
    ∀ (tasks : List Row) (res : List (String × Int)),
      tid ∈ tasks.map Row.id →
      (lookupKey res tid = none ∨ lookupKey res tid = some 0) →
      lookupKey
          (tasks.foldl
            (fun res t => if (lookupKey res t.id).getD 0 = 0 then objSet res t.id 0 else res)
            res)
          tid
        = some 0
  | [], _, hmem, _ => by simp at hmem
  | t :: rest, res, hmem, hres => by
    rw [List.foldl_cons]
    by_cases hid : t.id = tid
    · subst hid
      have hc : (lookupKey res t.id).getD 0 = 0 := by
        rcases hres with h | h <;> simp [h]
      simp only [hc, if_true]
      exact zeroFill_preserves t.id 0 rest _ (lookupKey_objSet_self res t.id 0)
    · have hmem' : tid ∈ rest.map Row.id := by
        have hcases : tid = t.id ∨ tid ∈ rest.map Row.id := by simpa using hmem
        rcases hcases with h | h
        · exact absurd h.symm hid
        · exact h
      by_cases hc : (lookupKey res t.id).getD 0 = 0
      · simp only [hc, if_true]
        refine zeroFill_mem tid rest _ hmem' ?_
        rw [lookupKey_objSet_ne res t.id tid 0 (Ne.symm hid)]
        exact hres
      · simp only [hc, if_false]
        exact zeroFill_mem tid rest res hmem' hres

theorem not_mem_keys_of_lookupKey_none (k : String) :
    ∀ (m : List (String × α)), lookupKey m k = none → k ∉ m.map Prod.fst
  | [], _ => by simp
  | p :: ps, h => by
    by_cases hp : p.1 = k
    · simp [lookupKey, hp] at h
    · have h' : lookupKey ps k = none := by simpa [lookupKey, hp] using h
      simp only [List.map_cons, List.mem_cons]
      rintro (hk | hk)
      · exact hp hk.symm
      · exact not_mem_keys_of_lookupKey_none k ps h' hk

/-! ## Dashboard-stats lemmas -/

theorem statsStep_total (progress : List (String × Int)) (cd : String) (acc : Stats)
    (t : Task) (hp : (lookupKey progress t.id).getD 0 ≤ 100)
    (today st en : Int) (hcd : parseDate cd = some today)
    (hst : parseDate t.start = some st) (hen : parseDate t.end_ = some en) :
    (statsStep progress cd acc t).notStarted + (statsStep progress cd acc t).inProgress
        + (statsStep progress cd acc t).completed + (statsStep progress cd acc t).overdue
      = acc.notStarted + acc.inProgress + acc.completed + acc.overdue + 1 := by
  simp only [statsStep, hcd, hst, hen, dlt, dge, dle, decide_eq_true_eq, Bool.and_eq_true]
  split_ifs with h1 h2 h3 h4 <;> simp <;> omega

theorem dashboardStats_aux (progress : List (String × Int)) (cd : String)
    (today : Int) (hcd : parseDate cd = some today) :
    ∀ (tasks : List Task) (acc : Stats),
      (∀ t ∈ tasks, (lookupKey progress t.id).getD 0 ≤ 100 ∧
        (parseDate t.start).isSome ∧ (parseDate t.end_).isSome) →
      (tasks.foldl (statsStep progress cd) acc).notStarted
          + (tasks.foldl (statsStep progress cd) acc).inProgress
          + (tasks.foldl (statsStep progress cd) acc).completed
          + (tasks.foldl (statsStep progress cd) acc).overdue
        = acc.notStarted + acc.inProgress + acc.completed + acc.overdue + tasks.length
  | [], acc, _ => by simp
  | t :: rest, acc, hv => by
    obtain ⟨hp, hs, he⟩ := hv t (List.mem_cons_self t rest)
    obtain ⟨st, hst⟩ := Option.isSome_iff_exists.mp hs
    obtain ⟨en, hen⟩ := Option.isSome_iff_exists.mp he
    have hv' : ∀ u ∈ rest, (lookupKey progress u.id).getD 0 ≤ 100 ∧
        (parseDate u.start).isSome ∧ (parseDate u.end_).isSome :=
      fun u hu => hv u (List.mem_cons_of_mem t hu)
    rw [List.foldl_cons]
    rw [dashboardStats_aux progress cd today hcd rest (statsStep progress cd acc t) hv']
    rw [statsStep_total progress cd acc t hp today st en hcd hst hen]
    simp [List.length_cons]
    omega

/-! ## Claim theorems -/

/-- C1: for every subtask-definition table (with the distinct keys a
JavaScript record guarantees), completion map and effective task list,
`computeProgress` maps each task id that has a subtask-definition entry to
`round (100 × Σ of the weights of its completed subtasks)`, maps every
other effective task id to `0`, and on a task with subtask weights
`[0.25, 0.25, 0.2, 0.2, 0.1]` with exactly the first two complete it
yields `50`. -/
theorem c1_computeProgress_weighted (defs : List (String × List Subtask))
    (sp : List (String × List (String × Bool))) (allTasks : List Row)
    (hnd : (defs.map Prod.fst).Nodup) :
    (∀ (tid : String) (subs : List Subtask), lookupKey defs tid = some subs →
        lookupKey (computeProgress defs sp allTasks) tid
          = some (round (100 *
              ((subs.filter fun st =>
                  (lookupKey ((lookupKey sp tid).getD []) st.id).getD false).map
                Subtask.weight).sum))) ∧
    (∀ t ∈ allTasks, lookupKey defs t.id = none →
        lookupKey (computeProgress defs sp allTasks) t.id = some 0) ∧
    lookupKey (computeProgress [("foundations", foundationsSubtasks)]
        [("foundations", [("mission", true), ("vision", true)])] []) "foundations"
      = some 50 := by
  refine ⟨?_, ?_, ?_⟩
  · intro tid subs hl
    have h1 := progressFold_lookup
      (fun k s => round (taskTotalProgress s ((lookupKey sp k).getD []))) defs [] hnd tid subs hl
    have h2 := zeroFill_preserves tid
      (round (taskTotalProgress subs ((lookupKey sp tid).getD []))) allTasks _ h1
    rw [taskTotalProgress_eq] at h2
    exact h2
  · intro t ht hl
    have hnm := not_mem_keys_of_lookupKey_none t.id defs hl
    have h1 := progressFold_not_mem
      (fun k s => round (taskTotalProgress s ((lookupKey sp k).getD []))) t.id defs [] hnm
    refine zeroFill_mem t.id allTasks _ (List.mem_map_of_mem Row.id ht) ?_
    left
    rw [h1]
    rfl
  · simp [computeProgress, taskTotalProgress, foundationsSubtasks, objSet, lookupKey]
    norm_num [round_eq]

/-- Witness for C1: on the `foundations` table with `mission` and `vision`
checked, `computeProgress` gives `round (100 × (0.25 + 0.25)) = 50` for the
entry id and `0` for an effective task without subtask definitions. -/
theorem c1_computeProgress_weighted_witness :
    lookupKey (computeProgress [("foundations", foundationsSubtasks)]
        [("foundations", [("mission", true), ("vision", true)])]
        [{ id := "solo", label := "Solo", start := "2026-01-01", end_ := "2026-01-02",
           owner := "Leadership", category := none, offset := some 52, length := some 1 }])
        "solo"
      = some 0 :=
  (c1_computeProgress_weighted [("foundations", foundationsSubtasks)]
      [("foundations", [("mission", true), ("vision", true)])]
      [{ id := "solo", label := "Solo", start := "2026-01-01", end_ := "2026-01-02",
         owner := "Leadership", category := none, offset := some 52, length := some 1 }]
      (by simp)).2.1
    { id := "solo", label := "Solo", start := "2026-01-01", end_ := "2026-01-02",
      owner := "Leadership", category := none, offset := some 52, length := some 1 }
    (by simp) (by simp [lookupKey])

/-- C2: for a task with progress < 100 and `start ≤ end` (the data-model
invariant on task dates), `getTaskStatus` is in-progress when the reference
date equals the end date, and is overdue exactly when the reference date is
strictly after the end date. -/
theorem c2_status_end_boundary (progress : List (String × Int)) (t : Task)
    (cd : String) (today st en : Int)
    (hcd : parseDate cd = some today) (hst : parseDate t.start = some st)
    (hen : parseDate t.end_ = some en)
    (hp : (lookupKey progress t.id).getD 0 < 100) (hse : st ≤ en) :
    (today = en → getTaskStatus progress cd t = .inProgress) ∧
    (getTaskStatus progress cd t = .overdue ↔ en < today) := by
  constructor
  · intro htoday
    subst htoday
    simp only [getTaskStatus, hcd, hst, hen, dlt, decide_eq_true_eq]
    split_ifs with h1 h2 h3 <;> first | rfl | omega
  · simp only [getTaskStatus, hcd, hst, hen, dlt, decide_eq_true_eq]
    split_ifs with h1 h2 h3 <;> simp <;> omega

/-- Witness for C2: `start = 2026-01-01`, `end = 2026-01-10`, percent 40:
reference date `2026-01-10` gives in-progress and `2026-01-11` gives
overdue. -/
theorem c2_status_end_boundary_witness :
    getTaskStatus [("t1", 40)] "2026-01-10"
        { id := "t1", label := "T", start := "2026-01-01", end_ := "2026-01-10",
          owner := "Design" }
      = .inProgress ∧
    getTaskStatus [("t1", 40)] "2026-01-11"
        { id := "t1", label := "T", start := "2026-01-01", end_ := "2026-01-10",
          owner := "Design" }
      = .overdue := by
  constructor
  · exact (c2_status_end_boundary [("t1", 40)]
      { id := "t1", label := "T", start := "2026-01-01", end_ := "2026-01-10",
        owner := "Design" }
      "2026-01-10" (daysFromCivil 2026 1 10) (daysFromCivil 2026 1 1)
      (daysFromCivil 2026 1 10) (by decide) (by decide) (by decide) (by decide)
      (by decide)).1 rfl
  · exact (c2_status_end_boundary [("t1", 40)]
      { id := "t1", label := "T", start := "2026-01-01", end_ := "2026-01-10",
        owner := "Design" }
      "2026-01-11" (daysFromCivil 2026 1 11) (daysFromCivil 2026 1 1)
      (daysFromCivil 2026 1 10) (by decide) (by decide) (by decide) (by decide)
      (by decide)).2.mpr (by decide)

/-- C3: at 100 % weighted progress the status is `completed` for every
reference date, in both the owner-view `getTaskStatus` and the countdown
tracker, regardless of where the reference date lies relative to `start`
and `end` (the percent test is the first branch of the tie-break chain). -/
theorem c3_completed_wins (progress : List (String × Int)) (cd : String) (t : Task)
    (hp : (lookupKey progress t.id).getD 0 = 100) :
    getTaskStatus progress cd t = .completed ∧
    countdownStatus progress cd t = .completed := by
  constructor
  · simp only [getTaskStatus, hp, if_true]
  · simp only [countdownStatus, hp, if_true]

/-- Witness for C3: a fully completed task whose start date is after the
reference date is still `completed` in both views. -/
theorem c3_completed_wins_witness :
    getTaskStatus [("t1", 100)] "2026-01-01"
        { id := "t1", label := "T", start := "2026-03-01", end_ := "2026-04-01",
          owner := "Product" }
      = .completed ∧
    countdownStatus [("t1", 100)] "2026-01-01"
        { id := "t1", label := "T", start := "2026-03-01", end_ := "2026-04-01",
          owner := "Product" }
      = .completed :=
  c3_completed_wins [("t1", 100)] "2026-01-01"
    { id := "t1", label := "T", start := "2026-03-01", end_ := "2026-04-01",
      owner := "Product" }
    (by decide)

/-- The merge `applyOverride` never changes the id. -/
theorem applyOverride_id (overrides : List (String × TaskOverride)) (t : Task) :
    (applyOverride overrides t).id = t.id := by
  unfold applyOverride
  cases lookupKey overrides t.id <;> rfl

/-- Every row of the effective task list has an id outside the deletion
set. -/
theorem computeEffectiveTasks_not_deleted (catalog customTasks : List Task)
    (overrides : List (String × TaskOverride)) (deleted : List String) :
    ∀ r ∈ computeEffectiveTasks catalog customTasks overrides deleted,
      r.id ∉ deleted := by
  intro r hr
  unfold computeEffectiveTasks buildRows at hr
  obtain ⟨t, ht, rfl⟩ := List.mem_map.mp hr
  obtain ⟨u, hu, rfl⟩ := List.mem_map.mp ht
  have hfil := (List.mem_filter.mp hu).2
  have hid : (applyOverride overrides u).id = u.id := applyOverride_id overrides u
  simp only [hid]
  simp only [Bool.not_eq_true'] at hfil
  intro hmem
  rw [show deleted.contains u.id = true by simpa using hmem] at hfil
  exact Bool.false_ne_true hfil.symm

/-- C4: the override merge takes each of `start`, `end`, `owner`, `label`
from the override when that field is present and non-empty, and from the
base task otherwise; id and category always come from the base.  On the
concrete base `{start: A, end: B, owner: O, label: L}` with override
`{owner: O2}`, `computeEffectiveTasks` yields the task with only the owner
replaced. -/
theorem c4_override_merge (overrides : List (String × TaskOverride)) (t : Task)
    (o : TaskOverride) (ho : lookupKey overrides t.id = some o) :
    ((applyOverride overrides t).id = t.id ∧
      (applyOverride overrides t).category = t.category) ∧
    (∀ v, o.start = some v → v ≠ "" → (applyOverride overrides t).start = v) ∧
    ((o.start = none ∨ o.start = some "") → (applyOverride overrides t).start = t.start) ∧
    (∀ v, o.end_ = some v → v ≠ "" → (applyOverride overrides t).end_ = v) ∧
    ((o.end_ = none ∨ o.end_ = some "") → (applyOverride overrides t).end_ = t.end_) ∧
    (∀ v, o.owner = some v → v ≠ "" → (applyOverride overrides t).owner = v) ∧
    ((o.owner = none ∨ o.owner = some "") → (applyOverride overrides t).owner = t.owner) ∧
    (∀ v, o.label = some v → v ≠ "" → (applyOverride overrides t).label = v) ∧
    ((o.label = none ∨ o.label = some "") → (applyOverride overrides t).label = t.label) ∧
    computeEffectiveTasks
        [{ id := "base", label := "L", start := "2026-01-01", end_ := "2026-02-01",
           owner := "O" }]
        [] [("base", { owner := some "O2" })] []
      = [{ id := "base", label := "L", start := "2026-01-01", end_ := "2026-02-01",
           owner := "O2", category := none, offset := some 52, length := some 31 }] := by
  refine ⟨⟨?_, ?_⟩, ?_, ?_, ?_, ?_, ?_, ?_, ?_, ?_, ?_⟩
  · exact applyOverride_id overrides t
  · unfold applyOverride; rw [ho]
  · intro v hv hne; unfold applyOverride; rw [ho]; simp [jsOr, hv, hne]
  · rintro (h | h) <;> (unfold applyOverride; rw [ho]; simp [jsOr, h])
  · intro v hv hne; unfold applyOverride; rw [ho]; simp [jsOr, hv, hne]
  · rintro (h | h) <;> (unfold applyOverride; rw [ho]; simp [jsOr, h])
  · intro v hv hne; unfold applyOverride; rw [ho]; simp [jsOr, hv, hne]
  · rintro (h | h) <;> (unfold applyOverride; rw [ho]; simp [jsOr, h])
  · intro v hv hne; unfold applyOverride; rw [ho]; simp [jsOr, hv, hne]
  · rintro (h | h) <;> (unfold applyOverride; rw [ho]; simp [jsOr, h])
  · decide

/-- Witness for C4: with override `{owner: O2}` on the base task, the
merged owner is `O2` and the merged start date is the base's. -/
theorem c4_override_merge_witness :
    (applyOverride [("base", { owner := some "O2" })]
        { id := "base", label := "L", start := "2026-01-01", end_ := "2026-02-01",
          owner := "O" }).owner = "O2" ∧
    (applyOverride [("base", { owner := some "O2" })]
        { id := "base", label := "L", start := "2026-01-01", end_ := "2026-02-01",
          owner := "O" }).start = "2026-01-01" := by
  have h := c4_override_merge [("base", { owner := some "O2" })]
    { id := "base", label := "L", start := "2026-01-01", end_ := "2026-02-01",
      owner := "O" }
    { owner := some "O2" } (by decide)
  exact ⟨h.2.2.2.2.2.1 "O2" rfl (by decide), h.2.2.1 (Or.inl rfl)⟩

/-- C6: `deleteTask` adds the id to the deletion set, removes its override
entry and its subtask-completion entry, and the id never appears in the
effective task list computed from the resulting state. -/
theorem c6_delete_cascades (s : AppState) (taskId : String) (catalog : List Task) :
    taskId ∈ (handleDeleteTask s taskId).deletedTaskIds ∧
    lookupKey (handleDeleteTask s taskId).taskOverrides taskId = none ∧
    lookupKey (handleDeleteTask s taskId).subtaskProgress taskId = none ∧
    ∀ r ∈ computeEffectiveTasks catalog (handleDeleteTask s taskId).customTasks
        (handleDeleteTask s taskId).taskOverrides
        (handleDeleteTask s taskId).deletedTaskIds,
      r.id ≠ taskId := by
  refine ⟨by simp [handleDeleteTask], lookupKey_eraseKey_self _ _,
    lookupKey_eraseKey_self _ _, ?_⟩
  intro r hr hid
  have hnd := computeEffectiveTasks_not_deleted catalog
    (handleDeleteTask s taskId).customTasks (handleDeleteTask s taskId).taskOverrides
    (handleDeleteTask s taskId).deletedTaskIds r hr
  apply hnd
  rw [hid]
  simp [handleDeleteTask]

/-- Witness for C6: deleting `foundations` from a populated state removes
its override and completion entries and keeps it out of the effective
list. -/
theorem c6_delete_cascades_witness :
    "foundations" ∈
      (handleDeleteTask
        { taskOverrides := [("foundations", { owner := some "Design" })],
          customTasks := [],
          deletedTaskIds := [],
          subtaskProgress := [("foundations", [("mission", true)])] }
        "foundations").deletedTaskIds ∧
    lookupKey
        (handleDeleteTask
          { taskOverrides := [("foundations", { owner := some "Design" })],
            customTasks := [],
            deletedTaskIds := [],
            subtaskProgress := [("foundations", [("mission", true)])] }
          "foundations").taskOverrides "foundations"
      = none ∧
    lookupKey
        (handleDeleteTask
          { taskOverrides := [("foundations", { owner := some "Design" })],
            customTasks := [],
            deletedTaskIds := [],
            subtaskProgress := [("foundations", [("mission", true)])] }
          "foundations").subtaskProgress "foundations"
      = none := by
  have h := c6_delete_cascades
    { taskOverrides := [("foundations", { owner := some "Design" })],
      customTasks := [],
      deletedTaskIds := [],
      subtaskProgress := [("foundations", [("mission", true)])] }
    "foundations" []
  exact ⟨h.1, h.2.1, h.2.2.1⟩

/-- C7: the `"not-started"` branch of the filter-layer status predicate
holds exactly when the reference date is strictly before the task's start
date, for every progress map; consequently a task at 100 % progress whose
start date is after the reference date passes both the `"completed"` and
the `"not-started"` filters. -/
theorem c7_not_started_filter_ignores_percent (progress : List (String × Int))
    (cd : String) (r : Row) (today st : Int)
    (hcd : parseDate cd = some today) (hst : parseDate r.start = some st) :
    (matchesStatusFilter "not-started" progress cd r = true ↔ today < st) ∧
    ({ id := "t100", label := "T", start := "2026-05-01", end_ := "2026-06-01",
       owner := "Marketing", category := none, offset := some 172,
       length := some 31 } : Row) ∈
      filteredTasks
        [{ id := "t100", label := "T", start := "2026-05-01", end_ := "2026-06-01",
           owner := "Marketing", category := none, offset := some 172,
           length := some 31 }]
        "" "all" "completed" [("t100", 100)] "2026-01-01" ∧
    ({ id := "t100", label := "T", start := "2026-05-01", end_ := "2026-06-01",
       owner := "Marketing", category := none, offset := some 172,
       length := some 31 } : Row) ∈
      filteredTasks
        [{ id := "t100", label := "T", start := "2026-05-01", end_ := "2026-06-01",
           owner := "Marketing", category := none, offset := some 172,
           length := some 31 }]
        "" "all" "not-started" [("t100", 100)] "2026-01-01" := by
  refine ⟨?_, by decide, by decide⟩
  simp only [matchesStatusFilter]
  norm_num
  simp [hcd, hst, dlt]

/-- Witness for C7: at reference date `2026-01-01` a task starting
`2026-05-01` matches the `"not-started"` filter even at 100 % progress. -/
theorem c7_not_started_filter_ignores_percent_witness :
    matchesStatusFilter "not-started" [("t100", 100)] "2026-01-01"
        { id := "t100", label := "T", start := "2026-05-01", end_ := "2026-06-01",
          owner := "Marketing", category := none, offset := some 172,
          length := some 31 }
      = true :=
  (c7_not_started_filter_ignores_percent [("t100", 100)] "2026-01-01"
      { id := "t100", label := "T", start := "2026-05-01", end_ := "2026-06-01",
        owner := "Marketing", category := none, offset := some 172,
        length := some 31 }
      (daysFromCivil 2026 1 1) (daysFromCivil 2026 5 1)
      (by decide) (by decide)).1.mpr (by decide)

/-- C8: creating a task whose label is empty after trimming is rejected
with the error toast `"Please enter a task name"` and the state is
returned unchanged — no custom task is added, nothing else mutates, and
no exception escapes (the handler returns normally). -/
theorem c8_create_rejects_blank_label (s : AppState)
    (label startD endD owner cat : String) (nowMs : Int) (rand : String)
    (h : jsTrim label = "") :
    handleCreateTask s label startD endD owner cat nowMs rand
      = (s, [Toast.error "Please enter a task name"]) := by
  simp [handleCreateTask, h]

/-- Witness for C8: a whitespace-only label is rejected and the starting
state (with one custom task and one override) is untouched. -/
theorem c8_create_rejects_blank_label_witness :
    handleCreateTask
        { taskOverrides := [("foundations", { owner := some "Design" })],
          customTasks := [{ id := "c1", label := "X", start := "2026-01-01",
                              end_ := "2026-01-02", owner := "Product" }],
          deletedTaskIds := ["gone"],
          subtaskProgress := [("foundations", [("mission", true)])] }
        "   " "2026-01-01" "2026-01-02" "Leadership" "none" 1767225600000 "abc123xyz"
      = ({ taskOverrides := [("foundations", { owner := some "Design" })],
           customTasks := [{ id := "c1", label := "X", start := "2026-01-01",
                               end_ := "2026-01-02", owner := "Product" }],
           deletedTaskIds := ["gone"],
           subtaskProgress := [("foundations", [("mission", true)])] },
         [Toast.error "Please enter a task name"]) :=
  c8_create_rejects_blank_label _ _ _ _ _ _ _ _ (by decide)

/-- C9: `resetOverrides` is idempotent — applying it twice equals applying
it once, both as states and on the effective task list — and it changes
neither the custom-task list nor the deletion set. -/
theorem c9_resetOverrides_idempotent (catalog : List Task) (s : AppState) :
    resetOverrides (resetOverrides s) = resetOverrides s ∧
    computeEffectiveTasks catalog (resetOverrides (resetOverrides s)).customTasks
        (resetOverrides (resetOverrides s)).taskOverrides
        (resetOverrides (resetOverrides s)).deletedTaskIds
      = computeEffectiveTasks catalog (resetOverrides s).customTasks
          (resetOverrides s).taskOverrides (resetOverrides s).deletedTaskIds ∧
    (resetOverrides s).customTasks = s.customTasks ∧
    (resetOverrides s).deletedTaskIds = s.deletedTaskIds :=
  ⟨rfl, rfl, rfl, rfl⟩

/-- C10: when every task's progress percent is at most 100 (and the dates
involved are valid calendar dates), the dashboard status counters
partition the task list: completed + in-progress + not-started + overdue
equals the total number of tasks. -/
theorem c10_stats_partition (tasks : List Task) (progress : List (String × Int))
    (cd : String) (today : Int) (hcd : parseDate cd = some today)
    (hv : ∀ t ∈ tasks, (lookupKey progress t.id).getD 0 ≤ 100 ∧
      (parseDate t.start).isSome ∧ (parseDate t.end_).isSome) :
    (dashboardStats tasks progress cd).completed
        + (dashboardStats tasks progress cd).inProgress
        + (dashboardStats tasks progress cd).notStarted
        + (dashboardStats tasks progress cd).overdue
      = tasks.length := by
  have h := dashboardStats_aux progress cd today hcd tasks ⟨0, 0, 0, 0⟩ hv
  simp only [dashboardStats]
  simp at h
  omega

/-- Witness for C10: a three-task list (one completed, one in range, one
past due) has counters summing to 3. -/
theorem c10_stats_partition_witness :
    (dashboardStats
          [{ id := "a", label := "A", start := "2026-01-01", end_ := "2026-01-10",
             owner := "Design" },
           { id := "b", label := "B", start := "2026-02-01", end_ := "2026-03-01",
             owner := "Design" },
           { id := "c", label := "C", start := "2025-11-10", end_ := "2025-12-01",
             owner := "Product" }]
          [("a", 100), ("b", 40)] "2026-01-05").completed
        + (dashboardStats
          [{ id := "a", label := "A", start := "2026-01-01", end_ := "2026-01-10",
             owner := "Design" },
           { id := "b", label := "B", start := "2026-02-01", end_ := "2026-03-01",
             owner := "Design" },
           { id := "c", label := "C", start := "2025-11-10", end_ := "2025-12-01",
             owner := "Product" }]
          [("a", 100), ("b", 40)] "2026-01-05").inProgress
        + (dashboardStats
          [{ id := "a", label := "A", start := "2026-01-01", end_ := "2026-01-10",
             owner := "Design" },
           { id := "b", label := "B", start := "2026-02-01", end_ := "2026-03-01",
             owner := "Design" },
           { id := "c", label := "C", start := "2025-11-10", end_ := "2025-12-01",
             owner := "Product" }]
          [("a", 100), ("b", 40)] "2026-01-05").notStarted
        + (dashboardStats
          [{ id := "a", label := "A", start := "2026-01-01", end_ := "2026-01-10",
             owner := "Design" },
           { id := "b", label := "B", start := "2026-02-01", end_ := "2026-03-01",
             owner := "Design" },
           { id := "c", label := "C", start := "2025-11-10", end_ := "2025-12-01",
             owner := "Product" }]
          [("a", 100), ("b", 40)] "2026-01-05").overdue
      = 3 :=
  c10_stats_partition _ _ _ (daysFromCivil 2026 1 5) (by decide) (by decide)

/-- C5: the claim says malformed persisted JSON falls back totally to the
built-in defaults, as §7 of the spec requires; the initializers instead
call `JSON.parse` with no `try`/`catch`, so a malformed stored value
propagates the parse error (the fallback happens only when the key is
absent or empty).  This theorem evaluates the loads at the failing input
`"oops"` with a parse that fails there, exhibiting the divergence, and at
an absent key, where the fallback does happen. -/
theorem c5_malformed_state_propagates_error :
    loadCategoryColors
        (fun _ => Except.error "SyntaxError: Unexpected token o in JSON")
        (some "oops")
      = Except.error "SyntaxError: Unexpected token o in JSON" ∧
    loadSubtaskProgress
        (fun _ => Except.error "SyntaxError: Unexpected token o in JSON")
        (some "oops")
      = Except.error "SyntaxError: Unexpected token o in JSON" ∧
    loadCategoryColors
        (fun _ => Except.error "SyntaxError: Unexpected token o in JSON") none
      = Except.ok defaultCategoryColors ∧
    loadSubtaskProgress
        (fun _ => Except.error "SyntaxError: Unexpected token o in JSON") none
      = Except.ok initialSubtaskProgress := by
  refine ⟨?_, ?_, rfl, rfl⟩ <;> rfl

end Dashboard
